import Mathlib

/-!
Shallow embedding of the CertificationService workflow core
(`src/CertificationService/src/api/models.py`, `repository.py`, `service.py`).

Modelling conventions:
* `datetime.utcnow()` is modelled by an explicit natural-number clock measured
  in milliseconds; each call to `utcnow` consumes one tick, threaded through
  the stateful operations.  Durations (`int((f - s).total_seconds() * 1000)`)
  become exact integer differences of those millisecond ticks.
* Python `Dict[str, StageResult]` becomes an insertion-ordered association
  list `List (String × StageResult)` with dict-faithful `getSR` (first match)
  and `setSR` (replace in place, else append): all writes go through `setSR`,
  so keys are unique exactly as in a Python dict.
* Metric values (`Dict[str, float]`) are modelled with `Rat`; the core never
  computes with them, they are opaque payloads.
* The asynchronous `_kickoff_stages` coroutine is modelled as a pure function
  from the executor's outcomes (a function `CertificationStage → Except String
  String`, mirroring `trigger_stage` which either returns a reference or
  raises) to the final workflow together with the ordered list of snapshots
  passed to `repo.update` ("persist trace").  A Python `KeyError` on
  `wf.stage_results[s.value]` is modelled by the whole run returning `none`.
-/

namespace CertSvc

/-- models.py `CertificationStage`. -/
inductive CertificationStage where
  | CODE_QUALITY
  | SECURITY
  | COMPLIANCE
  | FUNCTIONAL
  | E2E
  | SOAK
  | PERFORMANCE
deriving DecidableEq, Repr, Fintype

/-- The `.value` string of each enum member (models.py). -/
def CertificationStage.value : CertificationStage → String
  | .CODE_QUALITY => "code_quality"
  | .SECURITY => "security"
  | .COMPLIANCE => "compliance"
  | .FUNCTIONAL => "functional"
  | .E2E => "e2e"
  | .SOAK => "soak"
  | .PERFORMANCE => "performance"

/-- models.py `Domain`. -/
inductive Domain where
  | CORE
  | TRANSPORT
  | BANKING
  | HEALTHCARE
deriving DecidableEq, Repr

/-- models.py `StageStatus`. -/
inductive StageStatus where
  | PENDING
  | RUNNING
  | SUCCEEDED
  | FAILED
  | SKIPPED
  | CANCELLED
deriving DecidableEq, Repr

/-- models.py `WorkflowStatus` (the Python member `PARTIAL` has value "partial"). -/
inductive WorkflowStatus where
  | CREATED
  | QUEUED
  | RUNNING
  | PARTIAL
  | SUCCEEDED
  | FAILED
  | CANCELLED
deriving DecidableEq, Repr

/-- models.py `GitInfo`. -/
structure GitInfo where
  repository : String
  folder : Option String
  branch : String
  commit_sha : String
  author : Option String
deriving DecidableEq, Repr

/-- models.py `NotificationConfig`. -/
structure NotificationConfig where
  webhook_url : Option String
  email : Option String
  slack_channel : Option String
  on_start : Bool
  on_finish : Bool
  on_failure : Bool
deriving DecidableEq, Repr

/-- models.py `StageResult`; timestamps are millisecond clock ticks. -/
structure StageResult where
  stage : CertificationStage
  status : StageStatus
  started_at : Option Nat
  finished_at : Option Nat
  duration_ms : Option Int
  logs_url : Option String
  metrics : Option (List (String × Rat))
  artifacts : Option (List (String × String))
  error_message : Option String
  executor_ref : Option String
deriving DecidableEq, Repr

/-- models.py `Workflow`. -/
structure Workflow where
  id : String
  correlate_run_id : Option String
  git : GitInfo
  domain : Domain
  stages : List CertificationStage
  status : WorkflowStatus
  created_at : Nat
  updated_at : Nat
  stage_results : List (String × StageResult)
  metadata : List (String × String)
  notification : Option NotificationConfig
deriving DecidableEq, Repr

/-- models.py `WorkflowCreateRequest`. -/
structure WorkflowCreateRequest where
  git : GitInfo
  domain : Domain
  stages : Option (List CertificationStage)
  metadata : Option (List (String × String))
  notification : Option NotificationConfig
  correlate_run_id : Option String
deriving DecidableEq, Repr

/-- models.py `WorkflowUpdateStatusRequest`. -/
structure WorkflowUpdateStatusRequest where
  stage : CertificationStage
  status : StageStatus
  logs_url : Option String
  metrics : Option (List (String × Rat))
  artifacts : Option (List (String × String))
  error_message : Option String
  executor_ref : Option String
deriving DecidableEq, Repr

abbrev StageResults := List (String × StageResult)

/-- Dict read `d.get(k)` / `d[k]` on the insertion-ordered association list. -/
def getSR (k : String) : StageResults → Option StageResult
  | [] => none
  | (k', v) :: rest => if k' = k then some v else getSR k rest

/-- Dict write `d[k] = v`: overwrite in place if the key exists, else append. -/
def setSR (k : String) (v : StageResult) : StageResults → StageResults
  | [] => [(k, v)]
  | (k', v') :: rest =>
      if k' = k then (k, v) :: rest else (k', v') :: setSR k v rest

/-- repository.py `DEFAULT_STAGES_BY_DOMAIN`. -/
def DEFAULT_STAGES_BY_DOMAIN : Domain → List CertificationStage
  | .CORE => [.CODE_QUALITY, .SECURITY, .FUNCTIONAL]
  | .TRANSPORT => [.CODE_QUALITY, .SECURITY, .FUNCTIONAL, .PERFORMANCE]
  | .BANKING => [.CODE_QUALITY, .SECURITY, .COMPLIANCE, .FUNCTIONAL, .E2E]
  | .HEALTHCARE => [.CODE_QUALITY, .SECURITY, .COMPLIANCE, .FUNCTIONAL, .SOAK]

/-- The fresh entry built by repository.py `init_stage_results` for stage `s`
(`StageResult(stage=s, status=PENDING, started_at=None, finished_at=None)`;
the remaining optional fields default to `None` in the pydantic model). -/
def pendingResult (s : CertificationStage) : StageResult :=
  { stage := s, status := .PENDING, started_at := none, finished_at := none,
    duration_ms := none, logs_url := none, metrics := none, artifacts := none,
    error_message := none, executor_ref := none }

/-- repository.py `init_stage_results`: the dict comprehension
`{s.value: StageResult(...) for s in stages}`, built key by key. -/
def init_stage_results (stages : List CertificationStage) : StageResults :=
  stages.foldl (fun acc s => setSR s.value (pendingResult s) acc) []

/-- repository.py `compute_overall_status`, line for line. -/
def compute_overall_status (results : StageResults) : WorkflowStatus :=
  let vals := results.map Prod.snd
  let any_failed := vals.any (fun r => r.status == .FAILED)
  let any_running := vals.any (fun r => r.status == .RUNNING)
  let all_succeeded := vals.all (fun r => r.status == .SUCCEEDED)
  let any_started := vals.any (fun r =>
    r.status == .RUNNING || r.status == .SUCCEEDED ||
    r.status == .FAILED || r.status == .SKIPPED)
  if any_failed then .FAILED
  else if all_succeeded && decide (results.length > 0) then .SUCCEEDED
  else if any_running then .RUNNING
  else if any_started then .PARTIAL
  else .CREATED

/-- Modelled from the spec's words (§4.2 precedence table, first match wins):
1. any `failed` → `failed`; 2. else every entry `succeeded` and the mapping
non-empty → `succeeded`; 3. else any `running` → `running`; 4. else any entry
with a status in \x7brunning, succeeded, failed, skipped\x7d → `partial`;
5. else → `created`.  Written to compare with `compute_overall_status`. -/
def deriveStatusSpec (results : StageResults) : WorkflowStatus :=
  if results.any (fun p => p.2.status == .FAILED) then .FAILED
  else if results.all (fun p => p.2.status == .SUCCEEDED) && !results.isEmpty then .SUCCEEDED
  else if results.any (fun p => p.2.status == .RUNNING) then .RUNNING
  else if results.any (fun p =>
    p.2.status == .RUNNING || p.2.status == .SUCCEEDED ||
    p.2.status == .FAILED || p.2.status == .SKIPPED) then .PARTIAL
  else .CREATED

/-! ### The in-memory repository (repository.py `InMemoryWorkflowRepository`)

The keyed store is modelled as a function `String → Option Workflow`; `create`
and `update` both store under `wf.id` (`self._by_id[wf.id] = wf`), `get` is
function application.  The lock only serializes the individual operations,
which are already atomic here. -/

abbrev Store := String → Option Workflow

def repoCreate (repo : Store) (wf : Workflow) : Store :=
  fun k => if k = wf.id then some wf else repo k

def repoUpdate (repo : Store) (wf : Workflow) : Store :=
  fun k => if k = wf.id then some wf else repo k

/-- service.py `create_workflow` (the synchronous part, before the kickoff
task is scheduled).  The generated uuid and the two `utcnow()` calls of lines
91-92 are passed in as `wfId` and the clock `c`. -/
def create_workflow (req : WorkflowCreateRequest) (wfId : String) (c : Nat) :
    Workflow :=
  let stages :=
    match req.stages with
    | some l => if l.isEmpty then DEFAULT_STAGES_BY_DOMAIN req.domain else l
    | none => DEFAULT_STAGES_BY_DOMAIN req.domain
  { id := wfId,
    correlate_run_id := req.correlate_run_id,
    git := req.git,
    domain := req.domain,
    stages := stages,
    status := .CREATED,
    created_at := c,
    updated_at := c + 1,
    stage_results := init_stage_results stages,
    metadata := match req.metadata with
      | some m => m
      | none => [],
    notification := req.notification }

/-- Python truthiness of an `Optional[str]`: `None` and `""` are falsy
(`if req.logs_url:` etc. in service.py lines 221-230). -/
def pyTruthyStr : Option String → Bool
  | none => false
  | some s => !(s == "")

/-- service.py lines 235-240: the terminal-status tuple of
`update_stage_status`. -/
def isTerminal (st : StageStatus) : Bool :=
  st == .SUCCEEDED || st == .FAILED || st == .SKIPPED || st == .CANCELLED

/-- The per-StageResult body of service.py `update_stage_status`, lines
220-245: overwrite the status, apply provided optional fields (string fields
behind Python truthiness, `metrics`/`artifacts` behind `is not None`), then
manage timestamps.  `c` is the tick of the `utcnow()` calls in lines 234/241. -/
def applyStageUpdate (sr0 : StageResult) (req : WorkflowUpdateStatusRequest)
    (c : Nat) : StageResult :=
  let sr1 := { sr0 with status := req.status }
  let sr2 := if pyTruthyStr req.logs_url then { sr1 with logs_url := req.logs_url } else sr1
  let sr3 := if req.metrics.isSome then { sr2 with metrics := req.metrics } else sr2
  let sr4 := if req.artifacts.isSome then { sr3 with artifacts := req.artifacts } else sr3
  let sr5 := if pyTruthyStr req.error_message then { sr4 with error_message := req.error_message } else sr4
  let sr6 := if pyTruthyStr req.executor_ref then { sr5 with executor_ref := req.executor_ref } else sr5
  let sr7 := if req.status == .RUNNING then { sr6 with started_at := some c } else sr6
  if isTerminal req.status then
    let sr8 := { sr7 with finished_at := some c }
    match sr8.started_at with
    | some st => { sr8 with duration_ms := some ((c : Int) - (st : Int)) }
    | none => sr8
  else sr7

/-- service.py `update_stage_status` (service level): fetch the workflow, fall
back to a fresh pending entry when the stage key is missing, apply the update,
recompute the overall status, persist.  Returns the updated store and the
returned workflow, or `none` for the Python `None` (workflow not found).
`c` is the tick of the timestamp `utcnow()`; `c + 1` the one of line 249. -/
def update_stage_status (repo : Store) (workflow_id : String)
    (req : WorkflowUpdateStatusRequest) (c : Nat) : Option (Store × Workflow) :=
  match repo workflow_id with
  | none => none
  | some wf =>
      let sr0 := match getSR req.stage.value wf.stage_results with
        | some sr => sr
        | none => pendingResult req.stage
      let sr' := applyStageUpdate sr0 req c
      let rs' := setSR req.stage.value sr' wf.stage_results
      let wf' := { wf with stage_results := rs',
                           status := compute_overall_status rs',
                           updated_at := c + 1 }
      some (repoUpdate repo wf', wf')

/-! ### The advancement sequence (service.py `_kickoff_stages`)

`exec` models `ExecutionServiceClient.trigger_stage`: it either returns an
executor reference (`Except.ok`) or raises (`Except.error`, carrying
`str(exc)`).  Each `datetime.utcnow()` call consumes one clock tick.  The
returned list is the ordered sequence of snapshots passed to
`self.repo.update` (the persist trace).  A missing key in
`wf.stage_results[s.value]` (Python `KeyError`, crashing the task) is the
`none` outcome. -/

/-- One iteration of the `for s in wf.stages` loop (service.py lines 122-155). -/
def kickoffStep (exec : CertificationStage → Except String String) (c : Nat)
    (wf : Workflow) (s : CertificationStage) :
    Option (Nat × Workflow × List Workflow) :=
  match getSR s.value wf.stage_results with
  | none => none
  | some sr0 =>
      let sr1 := { sr0 with status := .RUNNING, started_at := some c }
      let rs1 := setSR s.value sr1 wf.stage_results
      let wf1 := { wf with stage_results := rs1,
                           status := compute_overall_status rs1,
                           updated_at := c + 1 }
      match exec s with
      | .ok ref =>
          let sr2 := { sr1 with
            executor_ref := some ref,
            status := .SUCCEEDED,
            finished_at := some (c + 2),
            duration_ms := match sr1.started_at with
              | some st => some (((c + 2 : Nat) : Int) - (st : Int))
              | none => none }
          let rs2 := setSR s.value sr2 rs1
          let wf2 := { wf1 with stage_results := rs2,
                                status := compute_overall_status rs2,
                                updated_at := c + 3 }
          some (c + 4, wf2, [wf1, wf2])
      | .error msg =>
          let sr2 := { sr1 with
            status := .FAILED,
            error_message := some msg,
            finished_at := some (c + 2) }
          let rs2 := setSR s.value sr2 rs1
          let wf2 := { wf1 with stage_results := rs2,
                                status := compute_overall_status rs2,
                                updated_at := c + 3 }
          some (c + 4, wf2, [wf1, wf2])

/-- The `for s in wf.stages` loop itself.  Note there is no early exit: the
body's failure branch records the failure and the loop moves on. -/
def kickoffLoop (exec : CertificationStage → Except String String) :
    Nat → Workflow → List CertificationStage →
    Option (Nat × Workflow × List Workflow)
  | c, wf, [] => some (c, wf, [])
  | c, wf, s :: rest =>
      match kickoffStep exec c wf s with
      | none => none
      | some (c1, wf1, tr1) =>
          match kickoffLoop exec c1 wf1 rest with
          | none => none
          | some (c2, wf2, tr2) => some (c2, wf2, tr1 ++ tr2)

/-- service.py `_kickoff_stages` for a workflow found in the store: set the
overall status to `QUEUED`, persist, then drive every planned stage in
planning order.  (The trailing notification is a stateless stub.) -/
def kickoffStages (exec : CertificationStage → Except String String) (c : Nat)
    (wf : Workflow) : Option (Nat × Workflow × List Workflow) :=
  let wfQ := { wf with status := .QUEUED, updated_at := c }
  match kickoffLoop exec (c + 1) wfQ wfQ.stages with
  | none => none
  | some (c2, wf2, tr) => some (c2, wf2, wfQ :: tr)

/-! ### Concrete inputs used to instantiate the theorems -/

def demoGit : GitInfo :=
  { repository := "git@example.com:org/repo.git", folder := some "scripts/app",
    branch := "main", commit_sha := "c1", author := some "alice" }

def demoReq (stages : List CertificationStage) : WorkflowCreateRequest :=
  { git := demoGit, domain := .CORE, stages := some stages,
    metadata := some [("script_path", "scripts/app")], notification := none,
    correlate_run_id := some "run-1" }

def demoWf1 : Workflow := create_workflow (demoReq [.CODE_QUALITY]) "wf-1" 0

def demoWf2 : Workflow :=
  create_workflow (demoReq [.CODE_QUALITY, .SECURITY]) "wf-1" 0

def demoStore1 : Store := fun k => if k = "wf-1" then some demoWf1 else none

def demoExecBoom : CertificationStage → Except String String :=
  fun _ => .error "boom"

def demoExecFailFirst : CertificationStage → Except String String
  | .CODE_QUALITY => .error "boom"
  | s => .ok ("exec-wf-1-" ++ s.value)

def demoWfLogsResults : StageResults :=
  setSR "code_quality"
    ({ pendingResult .CODE_QUALITY with logs_url := some "http://old" })
    demoWf1.stage_results

def demoWfLogs : Workflow := { demoWf1 with stage_results := demoWfLogsResults }

def demoStoreLogs : Store := fun k => if k = "wf-1" then some demoWfLogs else none

def demoUpdEmptyLogs : WorkflowUpdateStatusRequest :=
  { stage := .CODE_QUALITY, status := .PENDING, logs_url := some "",
    metrics := none, artifacts := none, error_message := none,
    executor_ref := none }

def demoReqNone : WorkflowCreateRequest :=
  { git := demoGit, domain := .CORE, stages := none, metadata := none,
    notification := none, correlate_run_id := none }

def demoReqNoneHealth : WorkflowCreateRequest :=
  { git := demoGit, domain := .HEALTHCARE, stages := none, metadata := none,
    notification := none, correlate_run_id := none }

def demoWfDoneResults : StageResults :=
  setSR "code_quality"
    ({ pendingResult .CODE_QUALITY with status := .SUCCEEDED })
    demoWf1.stage_results

def demoWfDone : Workflow := { demoWf1 with stage_results := demoWfDoneResults }

def demoStoreDone : Store := fun k => if k = "wf-1" then some demoWfDone else none

def demoUpdMetrics : WorkflowUpdateStatusRequest :=
  { stage := .CODE_QUALITY, status := .SUCCEEDED, logs_url := none,
    metrics := some [("score", (0.95 : Rat))], artifacts := none,
    error_message := none, executor_ref := none }

def demoExecOk : CertificationStage → Except String String :=
  fun s => .ok ("exec-wf-1-" ++ s.value)

def demoUpd (s : CertificationStage) (st : StageStatus) :
    WorkflowUpdateStatusRequest :=
  { stage := s, status := st, logs_url := none, metrics := none,
    artifacts := none, error_message := none, executor_ref := none }

theorem any_map_snd (l : StageResults) (f : StageResult → Bool) :
    (l.map Prod.snd).any f = l.any (fun p => f p.2) := by
  induction l with
  | nil => rfl
  | cons a t ih => simp [List.any_cons, ih]

theorem all_map_snd (l : StageResults) (f : StageResult → Bool) :
    (l.map Prod.snd).all f = l.all (fun p => f p.2) := by
  induction l with
  | nil => rfl
  | cons a t ih => simp [List.all_cons, ih]

/-- C2: the status aggregator is pure and deterministic, agrees with the §4.2
precedence table (first match wins) on every stage-result mapping, and a
single failed entry forces the overall status `failed` regardless of every
other entry. -/
theorem compute_overall_status_matches_spec :
    (∀ results : StageResults,
        compute_overall_status results = deriveStatusSpec results) ∧
    (∀ (results : StageResults) (p : String × StageResult),
        p ∈ results → p.2.status = .FAILED →
        compute_overall_status results = .FAILED) := by
  constructor
  · intro results
    unfold compute_overall_status deriveStatusSpec
    simp only [any_map_snd, all_map_snd]
    have hlen : decide (results.length > 0) = !results.isEmpty := by
      cases results <;> simp
    rw [hlen]
  · intro results p hp hst
    have hany : results.any (fun q => q.2.status == StageStatus.FAILED) = true := by
      refine List.any_eq_true.mpr ⟨p, hp, ?_⟩
      simp [hst]
    unfold compute_overall_status
    simp only [any_map_snd, all_map_snd]
    rw [hany]
    rfl

/-- Concrete instantiation of the hypothesis-bearing part of
`compute_overall_status_matches_spec`: a mapping with one failed entry among
succeeded ones is aggregated to `failed`. -/
theorem compute_overall_status_matches_spec_witness :
    compute_overall_status
      [("code_quality", { pendingResult .CODE_QUALITY with status := .SUCCEEDED }),
       ("security", { pendingResult .SECURITY with status := .FAILED })] = .FAILED := by
  exact compute_overall_status_matches_spec.2
    [("code_quality", { pendingResult .CODE_QUALITY with status := .SUCCEEDED }),
     ("security", { pendingResult .SECURITY with status := .FAILED })]
    ("security", { pendingResult .SECURITY with status := .FAILED })
    (by simp) rfl

theorem getSR_setSR_self (k : String) (v : StageResult) (rs : StageResults) :
    getSR k (setSR k v rs) = some v := by
  induction rs with
  | nil => simp [getSR, setSR]
  | cons a t ih =>
      by_cases h : a.1 = k
      · simp [getSR, setSR, h]
      · simp [getSR, setSR, h, ih]

theorem getSR_setSR_ne (k k' : String) (v : StageResult) (rs : StageResults)
    (h : k' ≠ k) : getSR k' (setSR k v rs) = getSR k' rs := by
  induction rs with
  | nil => simp [getSR, setSR, Ne.symm h]
  | cons a t ih =>
      by_cases ha : a.1 = k
      · simp [getSR, setSR, ha, Ne.symm h]
      · by_cases ha' : a.1 = k'
        · simp [getSR, setSR, ha, ha', h]
        · simp [getSR, setSR, ha, ha', ih]

theorem getSR_setSR_isSome (k k' : String) (v : StageResult) (rs : StageResults) :
    (getSR k' (setSR k v rs)).isSome = true ↔
      ((getSR k' rs).isSome = true ∨ k' = k) := by
  by_cases h : k' = k
  · subst h
    simp [getSR_setSR_self]
  · rw [getSR_setSR_ne k k' v rs h]
    simp [h]

theorem getSR_mem (k : String) (rs : StageResults) (sr : StageResult)
    (h : getSR k rs = some sr) : (k, sr) ∈ rs := by
  induction rs with
  | nil => simp [getSR] at h
  | cons a t ih =>
      obtain ⟨k0, v0⟩ := a
      by_cases ha : k0 = k
      · subst ha
        simp [getSR] at h
        subst h
        exact List.mem_cons_self _ _
      · simp [getSR, ha] at h
        exact List.mem_cons_of_mem _ (ih h)

/-- A mapping holding a failed entry aggregates to overall `FAILED`. -/
theorem compute_failed_of_entry (rs : StageResults) (k : String) (sr : StageResult)
    (hget : getSR k rs = some sr) (hst : sr.status = .FAILED) :
    compute_overall_status rs = .FAILED := by
  have hmem : (k, sr) ∈ rs := getSR_mem k rs sr hget
  have hany : (rs.map Prod.snd).any (fun r => r.status == StageStatus.FAILED) = true := by
    refine List.any_eq_true.mpr ⟨sr, List.mem_map.mpr ⟨(k, sr), hmem, rfl⟩, ?_⟩
    simp [hst]
  unfold compute_overall_status
  simp only [any_map_snd, all_map_snd] at hany ⊢
  rw [hany]
  rfl

theorem value_injective :
    ∀ a b : CertificationStage, a.value = b.value → a = b := by
  decide

theorem getSR_initFold_not_mem (k : String) (l : List CertificationStage)
    (acc : StageResults) (h : ∀ s ∈ l, s.value ≠ k) :
    getSR k (l.foldl (fun acc s => setSR s.value (pendingResult s) acc) acc) =
      getSR k acc := by
  induction l generalizing acc with
  | nil => rfl
  | cons a t ih =>
      have ha : a.value ≠ k := h a (List.mem_cons_self a t)
      rw [List.foldl_cons, ih _ (fun s hs => h s (List.mem_cons_of_mem a hs)),
        getSR_setSR_ne _ _ _ _ (Ne.symm ha)]

theorem getSR_initFold_mem (s : CertificationStage) (l : List CertificationStage)
    (acc : StageResults) (h : s ∈ l) :
    getSR s.value (l.foldl (fun acc s => setSR s.value (pendingResult s) acc) acc) =
      some (pendingResult s) := by
  induction l generalizing acc with
  | nil => simp at h
  | cons a t ih =>
      by_cases hs : s ∈ t
      · exact ih _ hs
      · have has : a = s := by
          rcases List.mem_cons.mp h with h1 | h2
          · exact h1.symm
          · exact absurd h2 hs
        subst has
        rw [List.foldl_cons]
        rw [getSR_initFold_not_mem _ t _ ?_]
        · exact getSR_setSR_self _ _ _
        · intro s' hs' hv
          exact hs (value_injective s' a hv ▸ hs')

/-- For every stage `s`, the initialized mapping has key `s.value` iff `s` is
planned. -/
theorem getSR_init_iff (stages : List CertificationStage) (s : CertificationStage) :
    (getSR s.value (init_stage_results stages)).isSome = true ↔ s ∈ stages := by
  unfold init_stage_results
  by_cases h : s ∈ stages
  · simp [getSR_initFold_mem s stages [] h, h]
  · rw [getSR_initFold_not_mem _ stages [] ?_]
    · simp [getSR, h]
    · intro s' hs' hv
      exact h (value_injective s' s hv ▸ hs')

/-- Every value of the initialized mapping is a fresh pending entry. -/
theorem getSR_init_pending (stages : List CertificationStage) (k : String)
    (sr : StageResult) (h : getSR k (init_stage_results stages) = some sr) :
    ∃ s ∈ stages, sr = pendingResult s := by
  unfold init_stage_results at h
  induction stages generalizing sr with
  | nil => simp [getSR] at h
  | cons a t ih =>
      by_cases hk : ∀ s ∈ t, s.value ≠ k
      · rw [List.foldl_cons, getSR_initFold_not_mem _ t _ hk] at h
        by_cases hak : a.value = k
        · subst hak
          rw [getSR_setSR_self] at h
          exact ⟨a, List.mem_cons_self a t, (Option.some.injEq _ _ ▸ h).symm⟩
        · rw [getSR_setSR_ne _ _ _ _ (Ne.symm hak)] at h
          simp [getSR] at h
      · push_neg at hk
        obtain ⟨s0, hs0, hv0⟩ := hk
        rw [List.foldl_cons] at h
        have hsv : getSR s0.value
            (t.foldl (fun acc s => setSR s.value (pendingResult s) acc)
              (setSR a.value (pendingResult a) [])) = some (pendingResult s0) :=
          getSR_initFold_mem s0 t _ hs0
        rw [hv0] at hsv
        rw [hsv] at h
        exact ⟨s0, List.mem_cons_of_mem a hs0,
          (Option.some.injEq _ _ ▸ h).symm⟩

theorem kickoffStep_isSome (exec : CertificationStage → Except String String)
    (c : Nat) (wf : Workflow) (s : CertificationStage)
    (hg : (getSR s.value wf.stage_results).isSome = true) :
    (kickoffStep exec c wf s).isSome = true := by
  cases hgo : getSR s.value wf.stage_results with
  | none => rw [hgo] at hg; simp at hg
  | some sr0 => cases he : exec s <;> simp [kickoffStep, hgo, he]

theorem kickoffStep_common (exec : CertificationStage → Except String String)
    (c : Nat) (wf : Workflow) (s : CertificationStage)
    (c' : Nat) (wf' : Workflow) (tr : List Workflow)
    (h : kickoffStep exec c wf s = some (c', wf', tr)) :
    wf'.stages = wf.stages ∧ wf'.id = wf.id ∧
    (∀ k, k ≠ s.value → getSR k wf'.stage_results = getSR k wf.stage_results) ∧
    (∀ k, (getSR k wf'.stage_results).isSome = (getSR k wf.stage_results).isSome) ∧
    (∀ w ∈ tr, w.status = compute_overall_status w.stage_results) ∧
    wf'.status = compute_overall_status wf'.stage_results := by
  cases hg : getSR s.value wf.stage_results with
  | none => simp [kickoffStep, hg] at h
  | some sr0 =>
      cases he : exec s with
      | ok ref =>
          simp only [kickoffStep, hg, he, Option.some.injEq, Prod.mk.injEq] at h
          obtain ⟨-, hw, ht⟩ := h
          subst hw
          subst ht
          refine ⟨rfl, rfl, ?_, ?_, ?_, rfl⟩
          · intro k hk
            simp only
            rw [getSR_setSR_ne _ _ _ _ hk, getSR_setSR_ne _ _ _ _ hk]
          · intro k
            by_cases hk : k = s.value
            · subst hk
              simp [getSR_setSR_self, hg]
            · simp only
              rw [getSR_setSR_ne _ _ _ _ hk, getSR_setSR_ne _ _ _ _ hk]
          · intro w hw
            simp only [List.mem_cons, List.not_mem_nil, or_false] at hw
            rcases hw with h1 | h1 <;> subst h1 <;> rfl
      | error msg =>
          simp only [kickoffStep, hg, he, Option.some.injEq, Prod.mk.injEq] at h
          obtain ⟨-, hw, ht⟩ := h
          subst hw
          subst ht
          refine ⟨rfl, rfl, ?_, ?_, ?_, rfl⟩
          · intro k hk
            simp only
            rw [getSR_setSR_ne _ _ _ _ hk, getSR_setSR_ne _ _ _ _ hk]
          · intro k
            by_cases hk : k = s.value
            · subst hk
              simp [getSR_setSR_self, hg]
            · simp only
              rw [getSR_setSR_ne _ _ _ _ hk, getSR_setSR_ne _ _ _ _ hk]
          · intro w hw
            simp only [List.mem_cons, List.not_mem_nil, or_false] at hw
            rcases hw with h1 | h1 <;> subst h1 <;> rfl

theorem kickoffStep_lookup_ok (exec : CertificationStage → Except String String)
    (c : Nat) (wf : Workflow) (s : CertificationStage) (sr0 : StageResult)
    (ref : String) (c' : Nat) (wf' : Workflow) (tr : List Workflow)
    (hg : getSR s.value wf.stage_results = some sr0) (he : exec s = .ok ref)
    (h : kickoffStep exec c wf s = some (c', wf', tr)) :
    getSR s.value wf'.stage_results =
      some { sr0 with status := .SUCCEEDED, started_at := some c,
                      finished_at := some (c + 2),
                      duration_ms := some (((c + 2 : Nat) : Int) - (c : Int)),
                      executor_ref := some ref } := by
  simp only [kickoffStep, hg, he, Option.some.injEq, Prod.mk.injEq] at h
  obtain ⟨-, hw, -⟩ := h
  subst hw
  simp only
  rw [getSR_setSR_self]

theorem kickoffStep_lookup_err (exec : CertificationStage → Except String String)
    (c : Nat) (wf : Workflow) (s : CertificationStage) (sr0 : StageResult)
    (msg : String) (c' : Nat) (wf' : Workflow) (tr : List Workflow)
    (hg : getSR s.value wf.stage_results = some sr0) (he : exec s = .error msg)
    (h : kickoffStep exec c wf s = some (c', wf', tr)) :
    getSR s.value wf'.stage_results =
      some { sr0 with status := .FAILED, started_at := some c,
                      finished_at := some (c + 2),
                      error_message := some msg } := by
  simp only [kickoffStep, hg, he, Option.some.injEq, Prod.mk.injEq] at h
  obtain ⟨-, hw, -⟩ := h
  subst hw
  simp only
  rw [getSR_setSR_self]

theorem kickoffLoop_common (exec : CertificationStage → Except String String)
    (l : List CertificationStage) :
    ∀ (c : Nat) (wf : Workflow) (c' : Nat) (wf' : Workflow) (tr : List Workflow),
    kickoffLoop exec c wf l = some (c', wf', tr) →
    wf'.stages = wf.stages ∧ wf'.id = wf.id ∧
    (∀ k, (getSR k wf'.stage_results).isSome = (getSR k wf.stage_results).isSome) ∧
    (∀ k, (∀ s ∈ l, s.value ≠ k) →
      getSR k wf'.stage_results = getSR k wf.stage_results) ∧
    (∀ w ∈ tr, w.status = compute_overall_status w.stage_results) := by
  induction l with
  | nil =>
      intro c wf c' wf' tr h
      simp only [kickoffLoop, Option.some.injEq, Prod.mk.injEq] at h
      obtain ⟨-, hw, ht⟩ := h
      subst hw
      subst ht
      exact ⟨rfl, rfl, fun k => rfl, fun k _ => rfl, by simp⟩
  | cons a t ih =>
      intro c wf c' wf' tr h
      cases hs : kickoffStep exec c wf a with
      | none => simp [kickoffLoop, hs] at h
      | some out1 =>
          obtain ⟨c1, wf1, tr1⟩ := out1
          cases hl : kickoffLoop exec c1 wf1 t with
          | none => simp [kickoffLoop, hs, hl] at h
          | some out2 =>
              obtain ⟨c2, wf2, tr2⟩ := out2
              simp only [kickoffLoop, hs, hl, Option.some.injEq, Prod.mk.injEq] at h
              obtain ⟨-, hw, ht⟩ := h
              subst hw
              subst ht
              obtain ⟨hst1, hid1, hfr1, hkeys1, htr1, -⟩ :=
                kickoffStep_common exec c wf a c1 wf1 tr1 hs
              obtain ⟨hst2, hid2, hkeys2, hfr2, htr2⟩ :=
                ih c1 wf1 c2 wf2 tr2 hl
              refine ⟨hst2.trans hst1, hid2.trans hid1, ?_, ?_, ?_⟩
              · intro k
                rw [hkeys2 k, hkeys1 k]
              · intro k hk
                rw [hfr2 k (fun s hsm => hk s (List.mem_cons_of_mem a hsm)),
                  hfr1 k (Ne.symm (hk a (List.mem_cons_self a t)))]
              · intro w hw
                rcases List.mem_append.mp hw with h1 | h1
                · exact htr1 w h1
                · exact htr2 w h1

theorem kickoffLoop_isSome (exec : CertificationStage → Except String String)
    (l : List CertificationStage) :
    ∀ (c : Nat) (wf : Workflow),
    (∀ s ∈ l, (getSR s.value wf.stage_results).isSome = true) →
    (kickoffLoop exec c wf l).isSome = true := by
  induction l with
  | nil => intro c wf _; simp [kickoffLoop]
  | cons a t ih =>
      intro c wf hall
      have hs : (kickoffStep exec c wf a).isSome = true :=
        kickoffStep_isSome exec c wf a (hall a (List.mem_cons_self a t))
      cases hso : kickoffStep exec c wf a with
      | none => rw [hso] at hs; simp at hs
      | some out1 =>
          obtain ⟨c1, wf1, tr1⟩ := out1
          obtain ⟨-, -, -, hkeys1, -, -⟩ :=
            kickoffStep_common exec c wf a c1 wf1 tr1 hso
          have hrec : (kickoffLoop exec c1 wf1 t).isSome = true := by
            refine ih c1 wf1 (fun s hsm => ?_)
            rw [hkeys1 s.value]
            exact hall s (List.mem_cons_of_mem a hsm)
          cases hlo : kickoffLoop exec c1 wf1 t with
          | none => rw [hlo] at hrec; simp at hrec
          | some out2 =>
              obtain ⟨c2, wf2, tr2⟩ := out2
              simp [kickoffLoop, hso, hlo]

theorem kickoffLoop_status (exec : CertificationStage → Except String String)
    (l : List CertificationStage) :
    ∀ (c : Nat) (wf : Workflow) (c' : Nat) (wf' : Workflow) (tr : List Workflow),
    l ≠ [] →
    kickoffLoop exec c wf l = some (c', wf', tr) →
    wf'.status = compute_overall_status wf'.stage_results := by
  induction l with
  | nil => intro c wf c' wf' tr hne _; exact absurd rfl hne
  | cons a t ih =>
      intro c wf c' wf' tr _ h
      cases hs : kickoffStep exec c wf a with
      | none => simp [kickoffLoop, hs] at h
      | some out1 =>
          obtain ⟨c1, wf1, tr1⟩ := out1
          cases hl : kickoffLoop exec c1 wf1 t with
          | none => simp [kickoffLoop, hs, hl] at h
          | some out2 =>
              obtain ⟨c2, wf2, tr2⟩ := out2
              simp only [kickoffLoop, hs, hl, Option.some.injEq, Prod.mk.injEq] at h
              obtain ⟨-, hw, -⟩ := h
              subst hw
              cases t with
              | nil =>
                  simp only [kickoffLoop, Option.some.injEq, Prod.mk.injEq] at hl
                  obtain ⟨-, hw1, -⟩ := hl
                  subst hw1
                  obtain ⟨-, -, -, -, -, hfin⟩ :=
                    kickoffStep_common exec c wf a c1 _ tr1 hs
                  exact hfin
              | cons b u => exact ih c1 wf1 c2 wf2 tr2 (by simp) hl

theorem kickoffLoop_lookup (exec : CertificationStage → Except String String)
    (l : List CertificationStage) :
    ∀ (c : Nat) (wf : Workflow) (c' : Nat) (wf' : Workflow) (tr : List Workflow),
    kickoffLoop exec c wf l = some (c', wf', tr) →
    ∀ s ∈ l, ∃ sr, getSR s.value wf'.stage_results = some sr ∧
      (∀ ref, exec s = .ok ref →
        sr.status = .SUCCEEDED ∧ sr.executor_ref = some ref ∧
        ∃ st fin, sr.started_at = some st ∧ sr.finished_at = some fin ∧
          sr.duration_ms = some ((fin : Int) - (st : Int))) ∧
      (∀ msg, exec s = .error msg →
        sr.status = .FAILED ∧ sr.error_message = some msg ∧
        (∃ st, sr.started_at = some st) ∧ ∃ fin, sr.finished_at = some fin) := by
  induction l with
  | nil => intro c wf c' wf' tr _ s hs; simp at hs
  | cons a t ih =>
      intro c wf c' wf' tr h s hsl
      cases hs : kickoffStep exec c wf a with
      | none => simp [kickoffLoop, hs] at h
      | some out1 =>
          obtain ⟨c1, wf1, tr1⟩ := out1
          cases hl : kickoffLoop exec c1 wf1 t with
          | none => simp [kickoffLoop, hs, hl] at h
          | some out2 =>
              obtain ⟨c2, wf2, tr2⟩ := out2
              simp only [kickoffLoop, hs, hl, Option.some.injEq, Prod.mk.injEq] at h
              obtain ⟨-, hw, -⟩ := h
              subst hw
              by_cases hmem : s ∈ t
              · exact ih c1 wf1 c2 _ tr2 hl s hmem
              · have hsa : s = a := by
                  rcases List.mem_cons.mp hsl with h1 | h1
                  · exact h1
                  · exact absurd h1 hmem
                subst hsa
                by_cases hval : ∀ s' ∈ t, s'.value ≠ s.value
                · obtain ⟨-, -, -, hfr, -⟩ :=
                    kickoffLoop_common exec t c1 wf1 c2 _ tr2 hl
                  have hfr' := hfr s.value hval
                  cases hg : getSR s.value wf.stage_results with
                  | none => simp [kickoffStep, hg] at hs
                  | some sr0 =>
                      cases he : exec s with
                      | ok ref =>
                          have hlook := kickoffStep_lookup_ok exec c wf s sr0
                            ref c1 wf1 tr1 hg he hs
                          refine ⟨_, hfr'.trans hlook, ?_, ?_⟩
                          · intro ref' href
                            injection href with hr
                            subst hr
                            exact ⟨rfl, rfl, c, c + 2, rfl, rfl, rfl⟩
                          · intro msg hmsg
                            exact Except.noConfusion hmsg
                      | error msg =>
                          have hlook := kickoffStep_lookup_err exec c wf s sr0
                            msg c1 wf1 tr1 hg he hs
                          refine ⟨_, hfr'.trans hlook, ?_, ?_⟩
                          · intro ref' href
                            exact Except.noConfusion href
                          · intro msg' hmsg
                            injection hmsg with hm
                            subst hm
                            exact ⟨rfl, rfl, ⟨c, rfl⟩, c + 2, rfl⟩
                · push_neg at hval
                  obtain ⟨s', hs', hv⟩ := hval
                  have hss : s' = s := value_injective s' s hv
                  exact absurd (hss ▸ hs') hmem

theorem kickoffStep_duration_pres (exec : CertificationStage → Except String String)
    (c : Nat) (wf : Workflow) (a : CertificationStage)
    (c1 : Nat) (wf1 : Workflow) (tr1 : List Workflow)
    (h : kickoffStep exec c wf a = some (c1, wf1, tr1))
    (hQ : ∀ (s : CertificationStage) (m : String) (sr : StageResult),
      exec s = .error m → getSR s.value wf.stage_results = some sr →
      sr.duration_ms = none) :
    ∀ (s : CertificationStage) (m : String) (sr : StageResult),
      exec s = .error m → getSR s.value wf1.stage_results = some sr →
      sr.duration_ms = none := by
  intro s m sr hes hgs
  by_cases hv : s.value = a.value
  · have hsa : s = a := value_injective s a hv
    subst hsa
    cases hg : getSR s.value wf.stage_results with
    | none => simp [kickoffStep, hg] at h
    | some sr0 =>
        have hlook := kickoffStep_lookup_err exec c wf s sr0 m c1 wf1 tr1 hg hes h
        rw [hlook, Option.some.injEq] at hgs
        subst hgs
        exact hQ s m sr0 hes hg
  · obtain ⟨-, -, hfr, -, -, -⟩ := kickoffStep_common exec c wf a c1 wf1 tr1 h
    rw [hfr s.value hv] at hgs
    exact hQ s m sr hes hgs

theorem kickoffLoop_duration_pres (exec : CertificationStage → Except String String)
    (l : List CertificationStage) :
    ∀ (c : Nat) (wf : Workflow) (c' : Nat) (wf' : Workflow) (tr : List Workflow),
    kickoffLoop exec c wf l = some (c', wf', tr) →
    (∀ (s : CertificationStage) (m : String) (sr : StageResult),
      exec s = .error m → getSR s.value wf.stage_results = some sr →
      sr.duration_ms = none) →
    ∀ (s : CertificationStage) (m : String) (sr : StageResult),
      exec s = .error m → getSR s.value wf'.stage_results = some sr →
      sr.duration_ms = none := by
  induction l with
  | nil =>
      intro c wf c' wf' tr h hQ
      simp only [kickoffLoop, Option.some.injEq, Prod.mk.injEq] at h
      obtain ⟨-, hw, -⟩ := h
      subst hw
      exact hQ
  | cons a t ih =>
      intro c wf c' wf' tr h hQ
      cases hs : kickoffStep exec c wf a with
      | none => simp [kickoffLoop, hs] at h
      | some out1 =>
          obtain ⟨c1, wf1, tr1⟩ := out1
          cases hl : kickoffLoop exec c1 wf1 t with
          | none => simp [kickoffLoop, hs, hl] at h
          | some out2 =>
              obtain ⟨c2, wf2, tr2⟩ := out2
              simp only [kickoffLoop, hs, hl, Option.some.injEq, Prod.mk.injEq] at h
              obtain ⟨-, hw, -⟩ := h
              subst hw
              exact ih c1 wf1 c2 _ tr2 hl
                (kickoffStep_duration_pres exec c wf a c1 wf1 tr1 hs hQ)

theorem applyStageUpdate_fields (sr : StageResult)
    (req : WorkflowUpdateStatusRequest) (c : Nat) :
    (applyStageUpdate sr req c).stage = sr.stage ∧
    (applyStageUpdate sr req c).status = req.status ∧
    (applyStageUpdate sr req c).logs_url =
      (if pyTruthyStr req.logs_url then req.logs_url else sr.logs_url) ∧
    (applyStageUpdate sr req c).metrics =
      (if req.metrics.isSome then req.metrics else sr.metrics) ∧
    (applyStageUpdate sr req c).artifacts =
      (if req.artifacts.isSome then req.artifacts else sr.artifacts) ∧
    (applyStageUpdate sr req c).error_message =
      (if pyTruthyStr req.error_message then req.error_message else sr.error_message) ∧
    (applyStageUpdate sr req c).executor_ref =
      (if pyTruthyStr req.executor_ref then req.executor_ref else sr.executor_ref) ∧
    (applyStageUpdate sr req c).started_at =
      (if req.status == .RUNNING then some c else sr.started_at) ∧
    (applyStageUpdate sr req c).finished_at =
      (if isTerminal req.status then some c else sr.finished_at) ∧
    (applyStageUpdate sr req c).duration_ms =
      (if isTerminal req.status then
        match (if req.status == .RUNNING then some c else sr.started_at) with
        | some st => some ((c : Int) - (st : Int))
        | none => sr.duration_ms
      else sr.duration_ms) := by
  by_cases h1 : pyTruthyStr req.logs_url <;>
  by_cases h2 : req.metrics.isSome <;>
  by_cases h3 : req.artifacts.isSome <;>
  by_cases h4 : pyTruthyStr req.error_message <;>
  by_cases h5 : pyTruthyStr req.executor_ref <;>
  by_cases h6 : req.status == StageStatus.RUNNING <;>
  by_cases h7 : isTerminal req.status <;>
  cases hst : sr.started_at <;>
  simp [applyStageUpdate, h1, h2, h3, h4, h5, h6, h7, hst]

theorem update_stage_status_spec (repo : Store) (wid : String)
    (req : WorkflowUpdateStatusRequest) (c : Nat) (out : Store × Workflow)
    (wf : Workflow) (hrep : repo wid = some wf)
    (h : update_stage_status repo wid req c = some out) :
    out.2.stage_results = setSR req.stage.value
      (applyStageUpdate (match getSR req.stage.value wf.stage_results with
        | some sr => sr
        | none => pendingResult req.stage) req c) wf.stage_results ∧
    out.2.status = compute_overall_status out.2.stage_results ∧
    out.1 = repoUpdate repo out.2 ∧
    out.2.id = wf.id ∧ out.2.stages = wf.stages := by
  simp only [update_stage_status, hrep, Option.some.injEq] at h
  subst h
  exact ⟨rfl, rfl, rfl, rfl, rfl⟩

/-! ### C1 -/

/-- C1 is false on the code: in the two-stage workflow `demoWf2` whose first
stage's executor call fails, the advancement sequence still drives the second
planned stage (`security`) to `SUCCEEDED` — it does not remain `pending`.
The loop in `_kickoff_stages` has no break on failure. -/
theorem kickoff_no_halt_counterexample :
    (kickoffStages demoExecFailFirst 2 demoWf2).map
      (fun r => (getSR "security" r.2.1.stage_results).map (fun sr => sr.status)) =
      some (some .SUCCEEDED) := by
  decide

/-- C1 (amended): after a stage failure the advancement sequence continues
with the remaining planned stages: every planned stage is driven to the
terminal status determined by its own executor outcome (`SUCCEEDED` on
success, `FAILED` on failure), regardless of earlier failures; no stage is
left `pending`. -/
theorem kickoff_attempts_every_stage :
    ∀ (exec : CertificationStage → Except String String) (c : Nat)
      (wf : Workflow) (c' : Nat) (wfF : Workflow) (tr : List Workflow),
    kickoffStages exec c wf = some (c', wfF, tr) →
    ∀ s ∈ wf.stages, ∃ sr, getSR s.value wfF.stage_results = some sr ∧
      sr.status = (match exec s with
        | .ok _ => StageStatus.SUCCEEDED
        | .error _ => StageStatus.FAILED) := by
  intro exec c wf c' wfF tr h s hs
  simp only [kickoffStages] at h
  cases hl : kickoffLoop exec (c + 1)
      { wf with status := .QUEUED, updated_at := c } wf.stages with
  | none => rw [hl] at h; cases h
  | some out =>
      obtain ⟨c2, wf2, trL⟩ := out
      rw [hl] at h
      simp only [Option.some.injEq, Prod.mk.injEq] at h
      obtain ⟨-, hw, -⟩ := h
      subst hw
      obtain ⟨sr, hget, hok, herr⟩ :=
        kickoffLoop_lookup exec wf.stages (c + 1)
          { wf with status := .QUEUED, updated_at := c } c2 _ trL hl s hs
      refine ⟨sr, hget, ?_⟩
      cases he : exec s with
      | ok ref => rw [(hok ref he).1]
      | error msg => rw [(herr msg he).1]

/-- Concrete instantiation of `kickoff_attempts_every_stage`: in the run of
`kickoff_no_halt_counterexample`, the second stage ends `SUCCEEDED`. -/
theorem kickoff_attempts_every_stage_witness :
    ∃ sr, getSR "security"
        (((kickoffStages demoExecFailFirst 2 demoWf2).getD
          (0, demoWf2, [])).2.1).stage_results = some sr ∧
      sr.status = .SUCCEEDED := by
  have h : kickoffStages demoExecFailFirst 2 demoWf2 =
      some (((kickoffStages demoExecFailFirst 2 demoWf2).getD (0, demoWf2, [])).1,
        ((kickoffStages demoExecFailFirst 2 demoWf2).getD (0, demoWf2, [])).2.1,
        ((kickoffStages demoExecFailFirst 2 demoWf2).getD (0, demoWf2, [])).2.2) := by
    decide
  obtain ⟨sr, hget, hstat⟩ :=
    kickoff_attempts_every_stage demoExecFailFirst 2 demoWf2 _ _ _ h
      .SECURITY (by decide)
  refine ⟨sr, hget, ?_⟩
  rw [hstat]
  rfl

/-! ### C3 -/

/-- C3 is false on the code: `demoWf1` plans only `code_quality`, yet an
external update addressed to the unplanned stage `security` adds a
`"security"` key to `stage_results` (`update_stage_status` creates a fresh
entry and stores it), so the key set no longer equals the planned set. -/
theorem keys_counterexample :
    (update_stage_status demoStore1 "wf-1" (demoUpd .SECURITY .PENDING) 2).map
      (fun out => ((getSR "security" out.2.stage_results).isSome,
        decide (CertificationStage.SECURITY ∈ out.2.stages))) =
      some (true, false) := by
  decide

/-- C3 (amended): creation initializes exactly one pending entry per planned
stage (keys = planned set); the advancement sequence never adds or removes a
key; an external stage update never removes a key, and the key set after it
is exactly the old key set plus the requested stage's key — so keys can grow
beyond the planned set when an update addresses an unplanned stage, but
always contain the planned set. -/
theorem stage_result_keys_evolution :
    (∀ (stages : List CertificationStage) (s : CertificationStage),
      (getSR s.value (init_stage_results stages)).isSome = true ↔ s ∈ stages) ∧
    (∀ (exec : CertificationStage → Except String String) (c : Nat)
      (wf : Workflow) (c' : Nat) (wfF : Workflow) (tr : List Workflow),
      kickoffStages exec c wf = some (c', wfF, tr) →
      ∀ s : CertificationStage,
        (getSR s.value wfF.stage_results).isSome =
          (getSR s.value wf.stage_results).isSome) ∧
    (∀ (repo : Store) (wid : String) (req : WorkflowUpdateStatusRequest)
      (c : Nat) (out : Store × Workflow) (wf : Workflow),
      repo wid = some wf →
      update_stage_status repo wid req c = some out →
      ∀ k, (getSR k out.2.stage_results).isSome = true ↔
        ((getSR k wf.stage_results).isSome = true ∨ k = req.stage.value)) := by
  refine ⟨getSR_init_iff, ?_, ?_⟩
  · intro exec c wf c' wfF tr h s
    simp only [kickoffStages] at h
    cases hl : kickoffLoop exec (c + 1)
        { wf with status := .QUEUED, updated_at := c } wf.stages with
    | none => rw [hl] at h; cases h
    | some out =>
        obtain ⟨c2, wf2, trL⟩ := out
        rw [hl] at h
        simp only [Option.some.injEq, Prod.mk.injEq] at h
        obtain ⟨-, hw, -⟩ := h
        subst hw
        obtain ⟨-, -, hkeys, -, -⟩ :=
          kickoffLoop_common exec wf.stages (c + 1)
            { wf with status := .QUEUED, updated_at := c } c2 _ trL hl
        exact hkeys s.value
  · intro repo wid req c out wf hrep h k
    obtain ⟨hrs, -, -, -, -⟩ := update_stage_status_spec repo wid req c out wf hrep h
    rw [hrs]
    exact getSR_setSR_isSome req.stage.value k _ wf.stage_results

/-- Concrete instantiation of all three parts of
`stage_result_keys_evolution`. -/
theorem stage_result_keys_evolution_witness :
    (getSR "security" (init_stage_results [.CODE_QUALITY, .SECURITY])).isSome = true ∧
    (getSR "code_quality"
        (((kickoffStages demoExecBoom 2 demoWf1).getD
          (0, demoWf1, [])).2.1).stage_results).isSome =
      (getSR "code_quality" demoWf1.stage_results).isSome ∧
    (getSR "security"
        (((update_stage_status demoStore1 "wf-1" (demoUpd .SECURITY .PENDING) 2).getD
          (demoStore1, demoWf1)).2).stage_results).isSome = true := by
  refine ⟨?_, ?_, ?_⟩
  · exact (stage_result_keys_evolution.1 [.CODE_QUALITY, .SECURITY] .SECURITY).mpr
      (by decide)
  · have h : kickoffStages demoExecBoom 2 demoWf1 =
        some (((kickoffStages demoExecBoom 2 demoWf1).getD (0, demoWf1, [])).1,
          ((kickoffStages demoExecBoom 2 demoWf1).getD (0, demoWf1, [])).2.1,
          ((kickoffStages demoExecBoom 2 demoWf1).getD (0, demoWf1, [])).2.2) := by
      decide
    exact stage_result_keys_evolution.2.1 demoExecBoom 2 demoWf1 _ _ _ h .CODE_QUALITY
  · have h : update_stage_status demoStore1 "wf-1" (demoUpd .SECURITY .PENDING) 2 =
        some ((update_stage_status demoStore1 "wf-1" (demoUpd .SECURITY .PENDING) 2).getD
          (demoStore1, demoWf1)) := by
      rfl
    exact (stage_result_keys_evolution.2.2 demoStore1 "wf-1"
      (demoUpd .SECURITY .PENDING) 2 _ demoWf1 rfl h "security").mpr (Or.inr rfl)

/-! ### C5 -/

/-- C5: after every completed stage mutation the persisted workflow's overall
status equals the aggregator applied to its stage results: every snapshot
persisted by the advancement sequence after the initial `QUEUED` persist
(which precedes any stage mutation) satisfies it, and so does the workflow
persisted and returned by an external stage update that finds its workflow. -/
theorem status_recomputed_after_mutations :
    (∀ (exec : CertificationStage → Except String String) (c : Nat)
      (wf : Workflow) (c' : Nat) (wfF : Workflow) (tr : List Workflow),
      kickoffStages exec c wf = some (c', wfF, tr) →
      ∀ w ∈ tr.tail, w.status = compute_overall_status w.stage_results) ∧
    (∀ (repo : Store) (wid : String) (req : WorkflowUpdateStatusRequest)
      (c : Nat) (out : Store × Workflow),
      update_stage_status repo wid req c = some out →
      out.2.status = compute_overall_status out.2.stage_results) := by
  constructor
  · intro exec c wf c' wfF tr h w hw
    simp only [kickoffStages] at h
    cases hl : kickoffLoop exec (c + 1)
        { wf with status := .QUEUED, updated_at := c } wf.stages with
    | none => rw [hl] at h; cases h
    | some out =>
        obtain ⟨c2, wf2, trL⟩ := out
        rw [hl] at h
        simp only [Option.some.injEq, Prod.mk.injEq] at h
        obtain ⟨-, -, ht⟩ := h
        subst ht
        obtain ⟨-, -, -, -, htr⟩ :=
          kickoffLoop_common exec wf.stages (c + 1)
            { wf with status := .QUEUED, updated_at := c } c2 wf2 trL hl
        exact htr w hw
  · intro repo wid req c out h
    cases hrep : repo wid with
    | none => rw [update_stage_status, hrep] at h; cases h
    | some wf =>
        obtain ⟨-, hst, -, -, -⟩ := update_stage_status_spec repo wid req c out wf hrep h
        exact hst

/-- Concrete instantiation of both parts of
`status_recomputed_after_mutations`: the first post-queue persisted snapshot
of a demo run, and the workflow returned by a demo external update. -/
theorem status_recomputed_after_mutations_witness :
    ((((kickoffStages demoExecBoom 2 demoWf1).getD
        (0, demoWf1, [])).2.2).tail.getD 0 demoWf1).status =
      compute_overall_status
        ((((kickoffStages demoExecBoom 2 demoWf1).getD
          (0, demoWf1, [])).2.2).tail.getD 0 demoWf1).stage_results ∧
    ((update_stage_status demoStore1 "wf-1" (demoUpd .CODE_QUALITY .RUNNING) 2).getD
        (demoStore1, demoWf1)).2.status =
      compute_overall_status
        ((update_stage_status demoStore1 "wf-1" (demoUpd .CODE_QUALITY .RUNNING) 2).getD
          (demoStore1, demoWf1)).2.stage_results := by
  constructor
  · have h : kickoffStages demoExecBoom 2 demoWf1 =
        some (((kickoffStages demoExecBoom 2 demoWf1).getD (0, demoWf1, [])).1,
          ((kickoffStages demoExecBoom 2 demoWf1).getD (0, demoWf1, [])).2.1,
          ((kickoffStages demoExecBoom 2 demoWf1).getD (0, demoWf1, [])).2.2) := by
      decide
    refine status_recomputed_after_mutations.1 demoExecBoom 2 demoWf1 _ _ _ h _ ?_
    decide
  · have h : update_stage_status demoStore1 "wf-1" (demoUpd .CODE_QUALITY .RUNNING) 2 =
        some ((update_stage_status demoStore1 "wf-1"
          (demoUpd .CODE_QUALITY .RUNNING) 2).getD (demoStore1, demoWf1)) := by
      rfl
    exact status_recomputed_after_mutations.2 demoStore1 "wf-1"
      (demoUpd .CODE_QUALITY .RUNNING) 2 _ h

/-! ### C8 -/

/-- C8: when the Executor's trigger call fails for a planned stage of a
freshly initialized workflow, the advancement sequence completes (returns a
result rather than crashing), records that stage as `FAILED` with the error
text preserved verbatim and a finish timestamp set, stores no duration for
it, and the persisted overall status is the recomputed aggregate, namely
`FAILED`. -/
theorem executor_failure_absorbed :
    ∀ (exec : CertificationStage → Except String String) (c : Nat)
      (wf : Workflow) (s : CertificationStage) (msg : String),
    wf.stage_results = init_stage_results wf.stages →
    s ∈ wf.stages → exec s = .error msg →
    ∃ c' wfF tr, kickoffStages exec c wf = some (c', wfF, tr) ∧
      ∃ sr, getSR s.value wfF.stage_results = some sr ∧
        sr.status = .FAILED ∧ sr.error_message = some msg ∧
        sr.finished_at.isSome = true ∧ sr.duration_ms = none ∧
        wfF.status = .FAILED ∧
        wfF.status = compute_overall_status wfF.stage_results := by
  intro exec c wf s msg hrs hs hexec
  have hkeys : ∀ s' ∈ wf.stages,
      (getSR s'.value
        ({ wf with status := WorkflowStatus.QUEUED, updated_at := c } :
          Workflow).stage_results).isSome = true := by
    intro s' hs'
    show (getSR s'.value wf.stage_results).isSome = true
    rw [hrs]
    exact (getSR_init_iff wf.stages s').mpr hs'
  have hsome := kickoffLoop_isSome exec wf.stages (c + 1)
    { wf with status := .QUEUED, updated_at := c } hkeys
  cases hl : kickoffLoop exec (c + 1)
      { wf with status := .QUEUED, updated_at := c } wf.stages with
  | none => rw [hl] at hsome; simp at hsome
  | some out =>
      obtain ⟨c2, wf2, trL⟩ := out
      refine ⟨c2, wf2, { wf with status := .QUEUED, updated_at := c } :: trL,
        by simp [kickoffStages, hl], ?_⟩
      obtain ⟨sr, hget, -, herr⟩ :=
        kickoffLoop_lookup exec wf.stages (c + 1)
          { wf with status := .QUEUED, updated_at := c } c2 wf2 trL hl s hs
      obtain ⟨hst, hmsg, -, fin, hfin⟩ := herr msg hexec
      have hdur : sr.duration_ms = none := by
        refine kickoffLoop_duration_pres exec wf.stages (c + 1)
          { wf with status := .QUEUED, updated_at := c } c2 wf2 trL hl
          ?_ s msg sr hexec hget
        intro s' m sr' _ hg'
        have hg'' : getSR s'.value (init_stage_results wf.stages) = some sr' := by
          rw [← hrs]
          exact hg'
        obtain ⟨s'', -, rfl⟩ := getSR_init_pending wf.stages s'.value sr' hg''
        rfl
      have hcomp : wf2.status = compute_overall_status wf2.stage_results :=
        kickoffLoop_status exec wf.stages (c + 1)
          { wf with status := .QUEUED, updated_at := c } c2 wf2 trL
          (List.ne_nil_of_mem hs) hl
      have hfail : wf2.status = .FAILED := by
        rw [hcomp]
        exact compute_failed_of_entry wf2.stage_results s.value sr hget hst
      exact ⟨sr, hget, hst, hmsg, by rw [hfin]; rfl, hdur, hfail, hcomp⟩

/-- Concrete instantiation of `executor_failure_absorbed`: the demo run whose
only stage's executor raises "boom". -/
theorem executor_failure_absorbed_witness :
    (((kickoffStages demoExecBoom 2 demoWf1).getD (0, demoWf1, [])).2.1).status
        = .FAILED ∧
    ((getSR "code_quality"
        (((kickoffStages demoExecBoom 2 demoWf1).getD
          (0, demoWf1, [])).2.1).stage_results).map
      (fun sr => (sr.error_message, sr.duration_ms))) = some (some "boom", none) := by
  obtain ⟨c', wfF, tr, hk, sr, hget, hst, herr, hfin, hdur, hfail, hcomp⟩ :=
    executor_failure_absorbed demoExecBoom 2 demoWf1 .CODE_QUALITY "boom"
      rfl (by decide) rfl
  have hproj : (kickoffStages demoExecBoom 2 demoWf1).getD (0, demoWf1, []) =
      (c', wfF, tr) := by
    rw [hk]
    rfl
  rw [hproj]
  have hget' : getSR "code_quality" wfF.stage_results = some sr := hget
  refine ⟨hfail, ?_⟩
  rw [hget']
  simp [herr, hdur]

/-! ### C4 -/

/-- C4 is false on the code: when the only stage's executor call fails, the
advancement sequence stores a StageResult with `started_at` and `finished_at`
both present but `duration_ms` absent — the failure branch of
`_kickoff_stages` sets the finish timestamp without computing a duration,
refuting both the present-iff-both-timestamps invariant and the clause that
every operation setting `finished_at` with `started_at` set stores the
duration. -/
theorem duration_iff_counterexample :
    (kickoffStages demoExecBoom 2 demoWf1).map
      (fun r => (getSR "code_quality" r.2.1.stage_results).map
        (fun sr => (sr.started_at.isSome, sr.finished_at.isSome, sr.duration_ms))) =
      some (some (true, true, none)) := by
  decide

/-- C4 (amended): each single operation computes the duration as the exact
integer-millisecond difference finish − start whenever it sets `finished_at`
with a start timestamp present — the external update on a terminal status and
the advancement sequence's success branch do so — except the advancement
sequence's failure branch, which sets `finished_at` while leaving
`duration_ms` unchanged (hence absent for a freshly initialized stage), so
duration-present-iff-both-timestamps does not hold after a failed kickoff
stage. -/
theorem duration_computed_per_operation :
    (∀ (sr : StageResult) (req : WorkflowUpdateStatusRequest) (c : Nat) (st : Nat),
      isTerminal req.status = true → sr.started_at = some st →
      (applyStageUpdate sr req c).finished_at = some c ∧
      (applyStageUpdate sr req c).duration_ms = some ((c : Int) - (st : Int))) ∧
    (∀ (exec : CertificationStage → Except String String) (c : Nat)
      (wf : Workflow) (s : CertificationStage) (ref : String)
      (c1 : Nat) (wf1 : Workflow) (tr1 : List Workflow) (sr0 : StageResult),
      getSR s.value wf.stage_results = some sr0 → exec s = .ok ref →
      kickoffStep exec c wf s = some (c1, wf1, tr1) →
      ∃ sr, getSR s.value wf1.stage_results = some sr ∧
        sr.started_at = some c ∧ sr.finished_at = some (c + 2) ∧
        sr.duration_ms = some (((c + 2 : Nat) : Int) - (c : Int))) ∧
    (∀ (exec : CertificationStage → Except String String) (c : Nat)
      (wf : Workflow) (s : CertificationStage) (msg : String)
      (c1 : Nat) (wf1 : Workflow) (tr1 : List Workflow) (sr0 : StageResult),
      getSR s.value wf.stage_results = some sr0 → exec s = .error msg →
      kickoffStep exec c wf s = some (c1, wf1, tr1) →
      ∃ sr, getSR s.value wf1.stage_results = some sr ∧
        sr.started_at = some c ∧ sr.finished_at = some (c + 2) ∧
        sr.duration_ms = sr0.duration_ms) := by
  refine ⟨?_, ?_, ?_⟩
  · intro sr req c st hterm hstart
    obtain ⟨-, -, -, -, -, -, -, -, hfin, hdur⟩ := applyStageUpdate_fields sr req c
    have h6 : (req.status == StageStatus.RUNNING) = false := by
      cases hq : req.status <;> simp_all [isTerminal]
    constructor
    · rw [hfin]
      simp [hterm]
    · rw [hdur]
      simp [hterm, h6, hstart]
  · intro exec c wf s ref c1 wf1 tr1 sr0 hg he h
    exact ⟨_, kickoffStep_lookup_ok exec c wf s sr0 ref c1 wf1 tr1 hg he h,
      rfl, rfl, rfl⟩
  · intro exec c wf s msg c1 wf1 tr1 sr0 hg he h
    exact ⟨_, kickoffStep_lookup_err exec c wf s sr0 msg c1 wf1 tr1 hg he h,
      rfl, rfl, rfl⟩

/-- Concrete instantiation of all three parts of
`duration_computed_per_operation`. -/
theorem duration_computed_per_operation_witness :
    (applyStageUpdate { pendingResult .CODE_QUALITY with started_at := some 1 }
        (demoUpd .CODE_QUALITY .SUCCEEDED) 5).finished_at = some 5 ∧
    (applyStageUpdate { pendingResult .CODE_QUALITY with started_at := some 1 }
        (demoUpd .CODE_QUALITY .SUCCEEDED) 5).duration_ms = some (4 : Int) ∧
    (getSR "code_quality"
        (((kickoffStep demoExecOk 2 demoWf1 .CODE_QUALITY).getD
          (0, demoWf1, [])).2.1).stage_results).map
      (fun sr => sr.duration_ms) = some (some (2 : Int)) ∧
    (getSR "code_quality"
        (((kickoffStep demoExecBoom 2 demoWf1 .CODE_QUALITY).getD
          (0, demoWf1, [])).2.1).stage_results).map
      (fun sr => sr.duration_ms) = some none := by
  obtain ⟨hfin1, hdur1⟩ := duration_computed_per_operation.1
    { pendingResult .CODE_QUALITY with started_at := some 1 }
    (demoUpd .CODE_QUALITY .SUCCEEDED) 5 1 rfl rfl
  have hok : kickoffStep demoExecOk 2 demoWf1 .CODE_QUALITY =
      some (((kickoffStep demoExecOk 2 demoWf1 .CODE_QUALITY).getD
          (0, demoWf1, [])).1,
        ((kickoffStep demoExecOk 2 demoWf1 .CODE_QUALITY).getD
          (0, demoWf1, [])).2.1,
        ((kickoffStep demoExecOk 2 demoWf1 .CODE_QUALITY).getD
          (0, demoWf1, [])).2.2) := by
    decide
  have herr : kickoffStep demoExecBoom 2 demoWf1 .CODE_QUALITY =
      some (((kickoffStep demoExecBoom 2 demoWf1 .CODE_QUALITY).getD
          (0, demoWf1, [])).1,
        ((kickoffStep demoExecBoom 2 demoWf1 .CODE_QUALITY).getD
          (0, demoWf1, [])).2.1,
        ((kickoffStep demoExecBoom 2 demoWf1 .CODE_QUALITY).getD
          (0, demoWf1, [])).2.2) := by
    decide
  have hg : getSR CertificationStage.CODE_QUALITY.value demoWf1.stage_results =
      some (pendingResult .CODE_QUALITY) := by decide
  obtain ⟨sr2, hget2, -, -, hdur2⟩ := duration_computed_per_operation.2.1
    demoExecOk 2 demoWf1 .CODE_QUALITY "exec-wf-1-code_quality" _ _ _
    (pendingResult .CODE_QUALITY) hg rfl hok
  obtain ⟨sr3, hget3, -, -, hdur3⟩ := duration_computed_per_operation.2.2
    demoExecBoom 2 demoWf1 .CODE_QUALITY "boom" _ _ _
    (pendingResult .CODE_QUALITY) hg rfl herr
  refine ⟨hfin1, by rw [hdur1]; decide, ?_, ?_⟩
  · have hget2' : getSR "code_quality"
        (((kickoffStep demoExecOk 2 demoWf1 .CODE_QUALITY).getD
          (0, demoWf1, [])).2.1).stage_results = some sr2 := hget2
    rw [hget2']
    show some sr2.duration_ms = some (some (2 : Int))
    rw [hdur2]
    decide
  · have hget3' : getSR "code_quality"
        (((kickoffStep demoExecBoom 2 demoWf1 .CODE_QUALITY).getD
          (0, demoWf1, [])).2.1).stage_results = some sr3 := hget3
    rw [hget3']
    show some sr3.duration_ms = some none
    rw [hdur3]
    rfl

/-! ### C6 -/

/-- C6 is false on the code: the stored `logs_url` is `"http://old"`, the
update request provides `logs_url = ""` (present in the request), yet after
`update_stage_status` the stored value is still `"http://old"`, not `""` —
`if req.logs_url:` treats the provided empty string like an absent field. -/
theorem empty_string_field_counterexample :
    (update_stage_status demoStoreLogs "wf-1"
        demoUpdEmptyLogs 2).map
      (fun out => (getSR "code_quality" out.2.stage_results).map
        (fun sr => sr.logs_url)) = some (some (some "http://old")) := by
  decide

/-- C6 (amended): an external update leaves every field absent from the
request at its stored value; a provided `metrics` or `artifacts` mapping is
applied by simple overwrite; a provided non-empty `logs_url`,
`error_message` or `executor_ref` string is applied by simple overwrite,
but a provided **empty** string is treated like an absent field and leaves
the stored value untouched. -/
theorem external_update_field_semantics :
    ∀ (repo : Store) (wid : String) (req : WorkflowUpdateStatusRequest)
      (c : Nat) (out : Store × Workflow) (wf : Workflow) (sr0 : StageResult),
    repo wid = some wf →
    getSR req.stage.value wf.stage_results = some sr0 →
    update_stage_status repo wid req c = some out →
    ∃ sr1, getSR req.stage.value out.2.stage_results = some sr1 ∧
      (req.logs_url = none → sr1.logs_url = sr0.logs_url) ∧
      (∀ v, req.logs_url = some v → v ≠ "" → sr1.logs_url = some v) ∧
      (req.logs_url = some "" → sr1.logs_url = sr0.logs_url) ∧
      (req.metrics = none → sr1.metrics = sr0.metrics) ∧
      (∀ m, req.metrics = some m → sr1.metrics = some m) ∧
      (req.artifacts = none → sr1.artifacts = sr0.artifacts) ∧
      (∀ a, req.artifacts = some a → sr1.artifacts = some a) ∧
      (req.error_message = none → sr1.error_message = sr0.error_message) ∧
      (∀ v, req.error_message = some v → v ≠ "" → sr1.error_message = some v) ∧
      (req.error_message = some "" → sr1.error_message = sr0.error_message) ∧
      (req.executor_ref = none → sr1.executor_ref = sr0.executor_ref) ∧
      (∀ v, req.executor_ref = some v → v ≠ "" → sr1.executor_ref = some v) ∧
      (req.executor_ref = some "" → sr1.executor_ref = sr0.executor_ref) := by
  intro repo wid req c out wf sr0 hrep hg h
  obtain ⟨hrs, -, -, -, -⟩ := update_stage_status_spec repo wid req c out wf hrep h
  rw [hg] at hrs
  refine ⟨applyStageUpdate sr0 req c, by rw [hrs]; exact getSR_setSR_self _ _ _,
    ?_, ?_, ?_, ?_, ?_, ?_, ?_, ?_, ?_, ?_, ?_, ?_, ?_⟩
  all_goals
    obtain ⟨-, -, hlog, hmet, hart, herrm, hexe, -, -, -⟩ :=
      applyStageUpdate_fields sr0 req c
  · intro h0
    rw [hlog, h0]
    rfl
  · intro v hv hne
    rw [hlog, hv]
    simp [pyTruthyStr, hne]
  · intro hv
    rw [hlog, hv]
    rfl
  · intro h0
    rw [hmet, h0]
    rfl
  · intro m hm
    rw [hmet, hm]
    rfl
  · intro h0
    rw [hart, h0]
    rfl
  · intro a ha
    rw [hart, ha]
    rfl
  · intro h0
    rw [herrm, h0]
    rfl
  · intro v hv hne
    rw [herrm, hv]
    simp [pyTruthyStr, hne]
  · intro hv
    rw [herrm, hv]
    rfl
  · intro h0
    rw [hexe, h0]
    rfl
  · intro v hv hne
    rw [hexe, hv]
    simp [pyTruthyStr, hne]
  · intro hv
    rw [hexe, hv]
    rfl

/-- Concrete instantiation of `external_update_field_semantics`: the
empty-string update of the counterexample leaves the stored value in place. -/
theorem external_update_field_semantics_witness :
    (getSR "code_quality"
        (((update_stage_status demoStoreLogs "wf-1"
          demoUpdEmptyLogs 2).getD
            (demoStoreLogs, demoWfLogs)).2).stage_results).map
      (fun sr => sr.logs_url) = some (some "http://old") := by
  have h : update_stage_status demoStoreLogs "wf-1"
      demoUpdEmptyLogs 2 =
      some ((update_stage_status demoStoreLogs "wf-1"
        demoUpdEmptyLogs 2).getD
          (demoStoreLogs, demoWfLogs)) := by
    rfl
  have hg : getSR (CertificationStage.CODE_QUALITY).value demoWfLogs.stage_results =
      some { pendingResult .CODE_QUALITY with logs_url := some "http://old" } := by
    decide
  obtain ⟨sr1, hget, -, -, hempty, -⟩ :=
    external_update_field_semantics demoStoreLogs "wf-1"
      demoUpdEmptyLogs 2 _
      demoWfLogs _ rfl hg h
  have hget' : getSR "code_quality"
      (((update_stage_status demoStoreLogs "wf-1"
        demoUpdEmptyLogs 2).getD
          (demoStoreLogs, demoWfLogs)).2).stage_results = some sr1 := hget
  rw [hget']
  show some sr1.logs_url = some (some "http://old")
  rw [hempty rfl]

/-! ### C7 -/

/-- C7 is false on the code: applying the identical `RUNNING` update twice in
succession (clock ticks 2 then 4) re-stamps `started_at`, so the stored
StageResult after the second call differs from the one after a single call. -/
theorem update_idempotence_counterexample :
    ((update_stage_status demoStore1 "wf-1" (demoUpd .CODE_QUALITY .RUNNING) 2).bind
      (fun out1 =>
        update_stage_status out1.1 "wf-1" (demoUpd .CODE_QUALITY .RUNNING) 4)).map
      (fun out => (getSR "code_quality" out.2.stage_results).map
        (fun sr => sr.started_at)) ≠
    (update_stage_status demoStore1 "wf-1" (demoUpd .CODE_QUALITY .RUNNING) 2).map
      (fun out => (getSR "code_quality" out.2.stage_results).map
        (fun sr => sr.started_at)) := by
  decide

/-- C7 (amended): two successive external updates with the identical payload
leave a stored StageResult that agrees with the result of a single call on
every field except the freshly stamped `started_at`/`finished_at` timestamps
and the duration derived from them — status, logs reference, metrics,
artifacts, error message and executor reference are identical (overwrite
semantics, no accumulation). -/
theorem double_update_agrees_except_timestamps :
    ∀ (repo : Store) (wid : String) (req : WorkflowUpdateStatusRequest)
      (c1 c2 : Nat) (out1 out2 : Store × Workflow),
    update_stage_status repo wid req c1 = some out1 →
    update_stage_status out1.1 wid req c2 = some out2 →
    ∀ sr1 sr2,
    getSR req.stage.value out1.2.stage_results = some sr1 →
    getSR req.stage.value out2.2.stage_results = some sr2 →
    sr2.stage = sr1.stage ∧ sr2.status = sr1.status ∧
    sr2.logs_url = sr1.logs_url ∧ sr2.metrics = sr1.metrics ∧
    sr2.artifacts = sr1.artifacts ∧ sr2.error_message = sr1.error_message ∧
    sr2.executor_ref = sr1.executor_ref := by
  intro repo wid req c1 c2 out1 out2 h1 h2 sr1 sr2 hget1 hget2
  cases hrep1 : repo wid with
  | none => rw [update_stage_status, hrep1] at h1; cases h1
  | some wf =>
      obtain ⟨hrs1, -, hsto1, -, -⟩ :=
        update_stage_status_spec repo wid req c1 out1 wf hrep1 h1
      have hsr1 : getSR req.stage.value out1.2.stage_results =
          some (applyStageUpdate (match getSR req.stage.value wf.stage_results with
            | some sr => sr
            | none => pendingResult req.stage) req c1) := by
        rw [hrs1]
        exact getSR_setSR_self _ _ _
      rw [hsr1] at hget1
      injection hget1 with e1
      by_cases hid : wid = out1.2.id
      · have hrep2 : out1.1 wid = some out1.2 := by
          rw [hsto1]
          simp [repoUpdate, hid]
        obtain ⟨hrs2, -, -, -, -⟩ :=
          update_stage_status_spec out1.1 wid req c2 out2 out1.2 hrep2 h2
        have hsr2 : getSR req.stage.value out2.2.stage_results =
            some (applyStageUpdate (match getSR req.stage.value out1.2.stage_results with
              | some sr => sr
              | none => pendingResult req.stage) req c2) := by
          rw [hrs2]
          exact getSR_setSR_self _ _ _
        rw [hsr2] at hget2
        injection hget2 with e2
        rw [hsr1] at e2
        simp only at e2
        subst e1
        subst e2
        obtain ⟨ha1, ha2, ha3, ha4, ha5, ha6, ha7, -, -, -⟩ :=
          applyStageUpdate_fields (applyStageUpdate
            (match getSR req.stage.value wf.stage_results with
              | some sr => sr
              | none => pendingResult req.stage) req c1) req c2
        obtain ⟨hb1, hb2, hb3, hb4, hb5, hb6, hb7, -, -, -⟩ :=
          applyStageUpdate_fields
            (match getSR req.stage.value wf.stage_results with
              | some sr => sr
              | none => pendingResult req.stage) req c1
        refine ⟨?_, ?_, ?_, ?_, ?_, ?_, ?_⟩
        · rw [ha1]
        · rw [ha2, hb2]
        · rw [ha3]
          cases hT : pyTruthyStr req.logs_url <;> simp [hT, hb3]
        · rw [ha4]
          cases hT : req.metrics.isSome <;> simp [hT, hb4]
        · rw [ha5]
          cases hT : req.artifacts.isSome <;> simp [hT, hb5]
        · rw [ha6]
          cases hT : pyTruthyStr req.error_message <;> simp [hT, hb6]
        · rw [ha7]
          cases hT : pyTruthyStr req.executor_ref <;> simp [hT, hb7]
      · have hrep2 : out1.1 wid = some wf := by
          rw [hsto1]
          simp [repoUpdate, hid]
          exact hrep1
        obtain ⟨hrs2, -, -, -, -⟩ :=
          update_stage_status_spec out1.1 wid req c2 out2 wf hrep2 h2
        have hsr2 : getSR req.stage.value out2.2.stage_results =
            some (applyStageUpdate (match getSR req.stage.value wf.stage_results with
              | some sr => sr
              | none => pendingResult req.stage) req c2) := by
          rw [hrs2]
          exact getSR_setSR_self _ _ _
        rw [hsr2] at hget2
        injection hget2 with e2
        subst e1
        subst e2
        obtain ⟨ha1, ha2, ha3, ha4, ha5, ha6, ha7, -, -, -⟩ :=
          applyStageUpdate_fields
            (match getSR req.stage.value wf.stage_results with
              | some sr => sr
              | none => pendingResult req.stage) req c2
        obtain ⟨hb1, hb2, hb3, hb4, hb5, hb6, hb7, -, -, -⟩ :=
          applyStageUpdate_fields
            (match getSR req.stage.value wf.stage_results with
              | some sr => sr
              | none => pendingResult req.stage) req c1
        exact ⟨by rw [ha1, hb1], by rw [ha2, hb2], by rw [ha3, hb3],
          by rw [ha4, hb4], by rw [ha5, hb5], by rw [ha6, hb6],
          by rw [ha7, hb7]⟩

/-- Concrete instantiation of `double_update_agrees_except_timestamps`: two
identical `SUCCEEDED`-with-metrics updates leave the same status and metrics
as a single one. -/
theorem double_update_agrees_witness :
    (getSR "code_quality"
        (((update_stage_status
          ((update_stage_status demoStore1 "wf-1" demoUpdMetrics 2).getD
            (demoStore1, demoWf1)).1 "wf-1" demoUpdMetrics 4).getD
              (demoStore1, demoWf1)).2).stage_results).map
      (fun sr => (sr.status, sr.metrics)) =
    (getSR "code_quality"
        (((update_stage_status demoStore1 "wf-1" demoUpdMetrics 2).getD
          (demoStore1, demoWf1)).2).stage_results).map
      (fun sr => (sr.status, sr.metrics)) := by
  have h1 : update_stage_status demoStore1 "wf-1" demoUpdMetrics 2 =
      some ((update_stage_status demoStore1 "wf-1" demoUpdMetrics 2).getD
        (demoStore1, demoWf1)) := by
    rfl
  have h2 : update_stage_status
      ((update_stage_status demoStore1 "wf-1" demoUpdMetrics 2).getD
        (demoStore1, demoWf1)).1 "wf-1" demoUpdMetrics 4 =
      some ((update_stage_status
        ((update_stage_status demoStore1 "wf-1" demoUpdMetrics 2).getD
          (demoStore1, demoWf1)).1 "wf-1" demoUpdMetrics 4).getD
            (demoStore1, demoWf1)) := by
    rfl
  have hget1 : getSR (CertificationStage.CODE_QUALITY).value
      (((update_stage_status demoStore1 "wf-1" demoUpdMetrics 2).getD
        (demoStore1, demoWf1)).2).stage_results =
      some ((getSR (CertificationStage.CODE_QUALITY).value
        (((update_stage_status demoStore1 "wf-1" demoUpdMetrics 2).getD
          (demoStore1, demoWf1)).2).stage_results).getD
            (pendingResult .CODE_QUALITY)) := by
    rfl
  have hget2 : getSR (CertificationStage.CODE_QUALITY).value
      (((update_stage_status
        ((update_stage_status demoStore1 "wf-1" demoUpdMetrics 2).getD
          (demoStore1, demoWf1)).1 "wf-1" demoUpdMetrics 4).getD
            (demoStore1, demoWf1)).2).stage_results =
      some ((getSR (CertificationStage.CODE_QUALITY).value
        (((update_stage_status
          ((update_stage_status demoStore1 "wf-1" demoUpdMetrics 2).getD
            (demoStore1, demoWf1)).1 "wf-1" demoUpdMetrics 4).getD
              (demoStore1, demoWf1)).2).stage_results).getD
                (pendingResult .CODE_QUALITY)) := by
    rfl
  obtain ⟨-, hstat, -, hmet, -, -, -⟩ :=
    double_update_agrees_except_timestamps demoStore1 "wf-1" demoUpdMetrics
      2 4 _ _ h1 h2 _ _ hget1 hget2
  rw [show (getSR "code_quality"
      (((update_stage_status
        ((update_stage_status demoStore1 "wf-1" demoUpdMetrics 2).getD
          (demoStore1, demoWf1)).1 "wf-1" demoUpdMetrics 4).getD
            (demoStore1, demoWf1)).2).stage_results) =
      some ((getSR (CertificationStage.CODE_QUALITY).value
        (((update_stage_status
          ((update_stage_status demoStore1 "wf-1" demoUpdMetrics 2).getD
            (demoStore1, demoWf1)).1 "wf-1" demoUpdMetrics 4).getD
              (demoStore1, demoWf1)).2).stage_results).getD
                (pendingResult .CODE_QUALITY)) from hget2]
  rw [show (getSR "code_quality"
      (((update_stage_status demoStore1 "wf-1" demoUpdMetrics 2).getD
        (demoStore1, demoWf1)).2).stage_results) =
      some ((getSR (CertificationStage.CODE_QUALITY).value
        (((update_stage_status demoStore1 "wf-1" demoUpdMetrics 2).getD
          (demoStore1, demoWf1)).2).stage_results).getD
            (pendingResult .CODE_QUALITY)) from hget1]
  show some (_, _) = some (_, _)
  rw [hstat, hmet]

/-! ### C9 -/

/-- C9: for every creation request with no explicit stage list, the workflow
returned synchronously by `create_workflow` has planned stages equal to the
requested domain's default list (in particular, for domain `core`: code
quality, security, functional), every planned stage's StageResult initialized
to `PENDING` with no start or finish timestamps, and overall status
`CREATED`. -/
theorem create_core_defaults :
    ∀ (req : WorkflowCreateRequest) (wfId : String) (c : Nat),
    req.stages = none →
    (create_workflow req wfId c).stages = DEFAULT_STAGES_BY_DOMAIN req.domain ∧
    (req.domain = .CORE → (create_workflow req wfId c).stages =
      [.CODE_QUALITY, .SECURITY, .FUNCTIONAL]) ∧
    (create_workflow req wfId c).status = .CREATED ∧
    ∀ s ∈ (create_workflow req wfId c).stages,
      ∃ sr, getSR s.value (create_workflow req wfId c).stage_results = some sr ∧
        sr.status = .PENDING ∧ sr.started_at = none ∧ sr.finished_at = none := by
  intro req wfId c hst
  have hs : (create_workflow req wfId c).stages =
      DEFAULT_STAGES_BY_DOMAIN req.domain := by
    simp [create_workflow, hst]
  have hres : (create_workflow req wfId c).stage_results =
      init_stage_results (DEFAULT_STAGES_BY_DOMAIN req.domain) := by
    simp [create_workflow, hst]
  refine ⟨hs, ?_, rfl, ?_⟩
  · intro hdom
    rw [hs, hdom]
    rfl
  · intro s hsm
    rw [hs] at hsm
    refine ⟨pendingResult s, ?_, rfl, rfl, rfl⟩
    rw [hres]
    exact getSR_initFold_mem s _ [] hsm

/-- Concrete instantiation of `create_core_defaults`, at a `core` request
(default list, created status, pending entry) and at a `healthcare` request
(default list, pending entry with no timestamps). -/
theorem create_core_defaults_witness :
    (create_workflow demoReqNone "wf-9" 0).stages =
      [.CODE_QUALITY, .SECURITY, .FUNCTIONAL] ∧
    (create_workflow demoReqNone "wf-9" 0).status = .CREATED ∧
    ((getSR "security" (create_workflow demoReqNone "wf-9" 0).stage_results).map
      (fun sr => sr.status)) = some .PENDING ∧
    (create_workflow demoReqNoneHealth "wf-9" 0).stages =
      DEFAULT_STAGES_BY_DOMAIN .HEALTHCARE ∧
    ((getSR "soak" (create_workflow demoReqNoneHealth "wf-9" 0).stage_results).map
      (fun sr => (sr.status, sr.started_at, sr.finished_at))) =
      some (.PENDING, none, none) := by
  obtain ⟨-, h1c, h2, h3⟩ := create_core_defaults demoReqNone "wf-9" 0 rfl
  have h1 := h1c rfl
  obtain ⟨sr, hget, hp, -, -⟩ := h3 .SECURITY (by rw [h1]; decide)
  have hget' : getSR "security"
      (create_workflow demoReqNone "wf-9" 0).stage_results = some sr := hget
  obtain ⟨h4, -, -, h6⟩ := create_core_defaults demoReqNoneHealth "wf-9" 0 rfl
  obtain ⟨sr2, hget2, hp2, hs2, hf2⟩ := h6 .SOAK (by rw [h4]; decide)
  have hget2' : getSR "soak"
      (create_workflow demoReqNoneHealth "wf-9" 0).stage_results = some sr2 := hget2
  refine ⟨h1, h2, ?_, h4, ?_⟩
  · rw [hget']
    show some sr.status = some .PENDING
    rw [hp]
  · rw [hget2']
    show some (sr2.status, sr2.started_at, sr2.finished_at) =
      some (.PENDING, none, none)
    rw [hp2, hs2, hf2]

/-! ### C10 -/

/-- C10: `update_stage_status` performs no transition validation — for every
workflow found in the store, every requested stage and every requested
status, the stored stage's status afterwards is exactly the requested value
(including moving a terminal stage back to `PENDING` or `RUNNING`). -/
theorem update_applies_requested_status :
    ∀ (repo : Store) (wid : String) (req : WorkflowUpdateStatusRequest)
      (c : Nat) (wf : Workflow),
    repo wid = some wf →
    ∃ out, update_stage_status repo wid req c = some out ∧
      ∃ sr, getSR req.stage.value out.2.stage_results = some sr ∧
        sr.status = req.status := by
  intro repo wid req c wf hrep
  cases h : update_stage_status repo wid req c with
  | none => simp [update_stage_status, hrep] at h
  | some out =>
      refine ⟨out, rfl, ?_⟩
      obtain ⟨hrs, -, -, -, -⟩ :=
        update_stage_status_spec repo wid req c out wf hrep h
      refine ⟨_, by rw [hrs]; exact getSR_setSR_self _ _ _, ?_⟩
      obtain ⟨-, hstat, -⟩ := applyStageUpdate_fields
        (match getSR req.stage.value wf.stage_results with
          | some sr => sr
          | none => pendingResult req.stage) req c
      exact hstat

/-- Concrete instantiation of `update_applies_requested_status`: a stage
already `SUCCEEDED` is moved back to `PENDING` by an external update. -/
theorem update_applies_requested_status_witness :
    ((update_stage_status demoStoreDone "wf-1" (demoUpd .CODE_QUALITY .PENDING) 2).map
      (fun out => (getSR "code_quality" out.2.stage_results).map
        (fun sr => sr.status))) = some (some .PENDING) := by
  obtain ⟨out, hupd, sr, hget, hstat⟩ :=
    update_applies_requested_status demoStoreDone "wf-1"
      (demoUpd .CODE_QUALITY .PENDING) 2 demoWfDone rfl
  rw [hupd]
  have hget' : getSR "code_quality" out.2.stage_results = some sr := hget
  show some ((getSR "code_quality" out.2.stage_results).map (fun sr => sr.status)) =
    some (some .PENDING)
  rw [hget']
  show some (some sr.status) = some (some StageStatus.PENDING)
  rw [hstat]
  rfl

end CertSvc
